import Mathlib

/-!
Verification of the narration-to-audio pipeline in `src/app.py`
(PPT Voice Over Studio).

Strings from the Python code are embedded as `List Char`; external
capabilities (the OpenAI chat endpoint, the speech endpoint, pydub
resampling) are abstracted as function parameters, exactly at the
call boundary that `app.py` uses them.
-/

set_option maxRecDepth 10000

namespace PPTVoice

/-- ASCII whitespace, the character class removed by Python `str.strip()`
(restricted to the ASCII range: space, tab, newline, carriage return,
vertical tab, form feed). -/
def pyIsSpace (c : Char) : Bool :=
  c == ' ' || c == '\t' || c == '\n' || c.toNat == 13 || c.toNat == 11 || c.toNat == 12

/-- Model of Python `str.strip()` (left part): drop leading whitespace. -/
def lstrip (l : List Char) : List Char := l.dropWhile pyIsSpace

/-- Model of Python `str.strip()` (right part): drop trailing whitespace. -/
def rstrip (l : List Char) : List Char := (l.reverse.dropWhile pyIsSpace).reverse

/-- Model of Python `str.strip()`. -/
def pyStrip (l : List Char) : List Char := rstrip (lstrip l)

/-- Model of Python `text.split(". ")`: leftmost, non-overlapping split on
the two-character separator; `acc` holds the current segment reversed. -/
def splitDS : List Char → List Char → List (List Char)
  | acc, '.' :: ' ' :: rest => acc.reverse :: splitDS [] rest
  | acc, c :: rest => splitDS (c :: acc) rest
  | acc, [] => [acc.reverse]

/-- The text `sentence + ". "` appended to the accumulator for each
sentence inside `chunk_text`. -/
def addSep (s : List Char) : List Char := s ++ ['.', ' ']

/-- The loop body of `chunk_text` in `src/app.py`:

    for sentence in text.split(". "):
        if len(current) + len(sentence) < max_chars:
            current += sentence + ". "
        else:
            chunks.append(current.strip())
            current = sentence + ". "
    if current.strip():
        chunks.append(current.strip())
-/
def chunkLoop (m : Nat) : List (List Char) → List Char → List (List Char)
  | [], current => if pyStrip current = [] then [] else [pyStrip current]
  | s :: rest, current =>
    if current.length + s.length < m then chunkLoop m rest (current ++ addSep s)
    else pyStrip current :: chunkLoop m rest (addSep s)

/-- Model of `chunk_text(text, max_chars=900)` from `src/app.py`. -/
def chunk_text (text : List Char) (max_chars : Nat := 900) : List (List Char) :=
  chunkLoop max_chars (splitDS [] text) []

example : splitDS [] ("a. . b".data) = ["a".data, "".data, "b".data] := by decide
example : chunk_text ("abc".data) 3 = ["".data, "abc.".data] := by decide
example : chunk_text ("Hello world. Bye.".data) 900 = ["Hello world. Bye..".data] := by decide

/-- Model of `is_text_clear(text)` from `src/app.py`:
`bool(text and len(text.strip()) >= 20)`. -/
def is_text_clear (text : List Char) : Bool :=
  !text.isEmpty && decide (20 ≤ (pyStrip text).length)

/-- One slide of the uploaded presentation, as `app.py` reads it through
python-pptx: the texts of the non-title shapes, the (optional) title shape
text, the pre-existing notes text, and whether the notes slide exposes the
body placeholder `placeholders[1]` that the final notes write targets. -/
structure InputSlide where
  shapeTexts : List (List Char)
  title : Option (List Char)
  existingNotes : Option (List Char)
  hasNotesPlaceholder : Bool

/-- Model of `get_slide_title(slide)` from `src/app.py`: the stripped title text when
a title shape with non-blank text exists, otherwise the string
`"this slide"`. -/
def get_slide_title (s : InputSlide) : List Char :=
  match s.title with
  | some t => if pyStrip t = [] then "this slide".data else pyStrip t
  | none => "this slide".data

/-- The extracted slide text of the upload loop:
`" ".join(shape.text for ...non-title shapes...).strip()`. -/
def slideTextOf (s : InputSlide) : List Char :=
  pyStrip (List.intercalate [' '] s.shapeTexts)

/-- A single quote character, kept out of string literals. -/
def sq : Char := Char.ofNat 39

/-- The `opening` sentence built inside `generate_narration`. -/
def opening (slide_index : Nat) (title : List Char) : List Char :=
  if slide_index = 0 then
    "Today we are going to explore ".data ++ title ++ ". ".data
  else
    "In this slide we are going to explore ".data ++ title ++ ". ".data

/-- The prompt f-string built inside `generate_narration`. -/
def narrationPrompt (op title slide_text : List Char) : List Char :=
  "\nYou are narrating a PowerPoint slide.\n\nSTRICT RULES (must follow):\n- Use the slide title EXACTLY as provided\n- NEVER say ".data
  ++ [sq] ++ "the topic".data ++ [sq] ++ ", ".data
  ++ [sq] ++ "this topic".data ++ [sq] ++ ", or ".data
  ++ [sq] ++ "the concept".data ++ [sq]
  ++ "\n- Do NOT give generic explanations\n- Speak ONLY about the slide title and slide content\n- Simple Indian teaching tone\n- No headings\n- No bullet points\n\nStart exactly with:\n\"".data
  ++ op
  ++ "\"\n\nSlide Title (use this exact wording):\n".data
  ++ title
  ++ "\n\nSlide Content:\n".data
  ++ slide_text
  ++ "\n".data

/-- Model of `generate_narration(slide_text, slide_index, slide_title)` from
`src/app.py`, with the external chat-completion call abstracted as
`gen : prompt → content | fails`; the returned content is stripped. -/
def generate_narration (gen : List Char → Except Unit (List Char))
    (slide_text : List Char) (slide_index : Nat) (slide_title : List Char) :
    Except Unit (List Char) :=
  let title := pyStrip slide_title
  let op := opening slide_index title
  (gen (narrationPrompt op title slide_text)).map pyStrip

/-- The per-slide dictionary appended to `st.session_state.slides` by the
upload loop: `{"index": idx, "text": slide_text or slide_title,
"notes": notes, "skip": False}`. -/
structure SlideRecord where
  index : Nat
  text : List Char
  notes : List Char
  skip : Bool

/-- One iteration of the upload loop for the slide at position `idx`. -/
def extractSlide (gen : List Char → Except Unit (List Char)) (idx : Nat)
    (s : InputSlide) : Except Unit SlideRecord := do
  let slide_text := slideTextOf s
  let slide_title := get_slide_title s
  let notes ← generate_narration gen slide_text idx slide_title
  pure { index := idx
         text := if slide_text = [] then slide_title else slide_text
         notes := notes
         skip := false }

/-- The upload loop (`for idx, slide in enumerate(prs.slides)`), starting
from position `idx`; a generation failure propagates as an exception. -/
def extractLoop (gen : List Char → Except Unit (List Char)) :
    Nat → List InputSlide → Except Unit (List SlideRecord)
  | _, [] => .ok []
  | idx, s :: rest => do
    let r ← extractSlide gen idx s
    let rs ← extractLoop gen (idx + 1) rest
    pure (r :: rs)

/-- The whole upload loop of `src/app.py`, from slide 0. -/
def extractSlides (gen : List Char → Except Unit (List Char))
    (slides : List InputSlide) : Except Unit (List SlideRecord) :=
  extractLoop gen 0 slides

/-- Outcome of one streaming attempt of the speech provider on a chunk:
the bytes the attempt streamed into the open file before returning or
failing, and whether it completed without raising. -/
structure AttemptResult where
  written : List Nat
  ok : Bool

/-- Outcome of the per-chunk retry loop of `openai_tts`: the file contents
so far, the log of `time.sleep` delays, the number of attempts consumed,
and whether the loop ended in `break` (rather than re-raising). -/
structure ChunkResult where
  file : List Nat
  sleeps : List Nat
  attempts : Nat
  ok : Bool

/-- The `while attempt < retries` retry loop of `openai_tts`, for one chunk.
`att a` is the provider attempt with index `a`; `fuel = retries - attempt`.
On failure the loop increments `attempt`, sleeps `2 * attempt`, and
re-raises when `attempt == retries`; bytes already written stay in the
file. -/
def retryChunkAux (att : Nat → AttemptResult) :
    Nat → Nat → List Nat → List Nat → ChunkResult
  | 0, a, file, sleeps => ⟨file, sleeps, a, true⟩
  | fuel + 1, a, file, sleeps =>
    let r := att a
    let file1 := file ++ r.written
    if r.ok then ⟨file1, sleeps, a + 1, true⟩
    else
      let sleeps1 := sleeps ++ [2 * (a + 1)]
      if fuel = 0 then ⟨file1, sleeps1, a + 1, false⟩
      else retryChunkAux att fuel (a + 1) file1 sleeps1

/-- The per-chunk retry loop of `openai_tts`, started at attempt 0 on a
file already holding `file0` (the bytes of the previous chunks). -/
def retryChunk (att : Nat → AttemptResult) (retries : Nat) (file0 : List Nat) :
    ChunkResult :=
  retryChunkAux att retries 0 file0 []

/-- Overall outcome of `openai_tts`: file bytes, sleep log, and whether it
returned (true) or raised out of the retry loop (false). -/
structure TtsResult where
  file : List Nat
  sleeps : List Nat
  ok : Bool

/-- The `for chunk in chunks` loop of `openai_tts`: each chunk runs the
retry loop, appending into the same open file; an exhausted chunk
re-raises, abandoning the remaining chunks. -/
def ttsChunks (speak : List Char → Nat → AttemptResult) (retries : Nat) :
    List (List Char) → List Nat → List Nat → TtsResult
  | [], file, sleeps => ⟨file, sleeps, true⟩
  | c :: rest, file, sleeps =>
    let r := retryChunkAux (speak c) retries 0 file sleeps
    if r.ok then ttsChunks speak retries rest r.file r.sleeps
    else ⟨r.file, r.sleeps, false⟩

/-- Model of `apply_pitch(audio_path, pitch_change)` from `src/app.py`: the identity
when `pitch_change == 0`, otherwise the pydub resample-and-reencode
transformation, abstracted as `pf`. -/
def apply_pitch (pf : Int → List Nat → List Nat) (pitch : Int)
    (file : List Nat) : List Nat :=
  if pitch = 0 then file else pf pitch file

/-- Model of `openai_tts(text, out_mp3, voice, pitch_change, retries=3)` up to (and
excluding) the final `apply_pitch` call, with the provider abstracted as
`speak : chunk text → attempt index → AttemptResult`. -/
def openai_tts (speak : List Char → Nat → AttemptResult) (retries : Nat)
    (text : List Char) : TtsResult :=
  ttsChunks speak retries (chunk_text text 900) [] []

/-- The state `app.py` mutates on one output slide: the media assets added
by `add_audio_to_slide` and the notes text (initially the notes already in
the uploaded deck). -/
structure OutSlide where
  media : List (List Nat)
  notesText : Option (List Char)
  hasNotesPlaceholder : Bool

/-- The output package slide before any mutation. -/
def initOut (s : InputSlide) : OutSlide :=
  ⟨[], s.existingNotes, s.hasNotesPlaceholder⟩

/-- One iteration of the final-generation loop of `src/app.py`:
look up `prs.slides[slide_data["index"]]`, synthesize the narration with
`openai_tts` (a raise propagates: `none`), `add_audio_to_slide`, then
`slide.notes_slide.placeholders[1].text = slide_data["notes"]` inside a
`try/except: pass`. -/
def processSlide (speak : List Char → Nat → AttemptResult)
    (pf : Int → List Nat → List Nat) (pitch : Int)
    (pkg : List OutSlide) (r : SlideRecord) : Option (List OutSlide) :=
  match pkg[r.index]? with
  | none => none
  | some sl =>
    let t := openai_tts speak 3 r.notes
    if t.ok then
      let file := apply_pitch pf pitch t.file
      let sl1 : OutSlide := { sl with media := sl.media ++ [file] }
      let pkg1 := pkg.set r.index sl1
      some (if sl1.hasNotesPlaceholder then
              pkg1.set r.index { sl1 with notesText := some r.notes }
            else pkg1)
    else none

/-- State of the final-generation loop: mutated package, number of slides
fully processed, and whether the loop ran to completion. -/
structure RunState where
  pkg : List OutSlide
  processed : Nat
  ok : Bool

/-- The final-generation `for` loop, over the session slide records in
order; an uncaught exception aborts the remaining iterations. -/
def runSlides (speak : List Char → Nat → AttemptResult)
    (pf : Int → List Nat → List Nat) (pitch : Int) :
    List OutSlide → List SlideRecord → RunState
  | pkg, [] => ⟨pkg, 0, true⟩
  | pkg, r :: rs =>
    match processSlide speak pf pitch pkg r with
    | none => ⟨pkg, 0, false⟩
    | some pkg1 =>
      let st := runSlides speak pf pitch pkg1 rs
      ⟨st.pkg, st.processed + 1, st.ok⟩

/-- Result of the whole download-button block: final package state, slides
processed, the list of `prs.save` events, and success. -/
structure RunResult where
  package : List OutSlide
  processed : Nat
  saves : List (List OutSlide)
  ok : Bool

/-- The whole final-generation block of `src/app.py`: reopen the uploaded
deck (`slides.map initOut`), run the loop over the session records, and
only if the loop completes call `prs.save(final_ppt)` — exactly once,
after every slide. -/
def finalGeneration (speak : List Char → Nat → AttemptResult)
    (pf : Int → List Nat → List Nat) (pitch : Int)
    (slides : List InputSlide) (records : List SlideRecord) : RunResult :=
  let st := runSlides speak pf pitch (slides.map initOut) records
  ⟨st.pkg, st.processed, if st.ok then [st.pkg] else [], st.ok⟩

/-! ### Helper lemmas about the string primitives -/

theorem mem_dropWhile_of_mem {p : Char → Bool} {c : Char} {l : List Char}
    (h : c ∈ l) (hc : p c = false) : c ∈ l.dropWhile p := by
  induction l with
  | nil => cases h
  | cons x xs ih =>
    by_cases hx : p x
    · rw [List.dropWhile_cons_of_pos hx]
      rcases List.mem_cons.mp h with rfl | hmem
      · rw [hc] at hx; cases hx
      · exact ih hmem
    · rw [List.dropWhile_cons_of_neg hx]; exact h

theorem mem_lstrip_of_mem {c : Char} {l : List Char} (h : c ∈ l)
    (hc : pyIsSpace c = false) : c ∈ lstrip l :=
  mem_dropWhile_of_mem h hc

theorem mem_rstrip_of_mem {c : Char} {l : List Char} (h : c ∈ l)
    (hc : pyIsSpace c = false) : c ∈ rstrip l := by
  unfold rstrip
  exact List.mem_reverse.mpr
    (mem_dropWhile_of_mem (List.mem_reverse.mpr h) hc)

theorem pyStrip_ne_nil {c : Char} {l : List Char} (h : c ∈ l)
    (hc : pyIsSpace c = false) : pyStrip l ≠ [] :=
  List.ne_nil_of_mem (mem_rstrip_of_mem (mem_lstrip_of_mem h hc) hc)

theorem rstrip_length_le (l : List Char) : (rstrip l).length ≤ l.length := by
  unfold rstrip
  calc ((l.reverse.dropWhile pyIsSpace).reverse).length
      = (l.reverse.dropWhile pyIsSpace).length := List.length_reverse _
    _ ≤ l.reverse.length := (List.dropWhile_sublist pyIsSpace).length_le
    _ = l.length := List.length_reverse l

theorem lstrip_length_le (l : List Char) : (lstrip l).length ≤ l.length :=
  (List.dropWhile_sublist pyIsSpace).length_le

theorem pyStrip_length_le (l : List Char) : (pyStrip l).length ≤ l.length :=
  le_trans (rstrip_length_le (lstrip l)) (lstrip_length_le l)

theorem rstrip_append_space (l : List Char) : rstrip (l ++ [' ']) = rstrip l := by
  unfold rstrip
  rw [List.reverse_append]
  simp only [List.reverse_cons, List.reverse_nil, List.nil_append, List.cons_append,
    List.nil_append]
  rw [List.dropWhile_cons_of_pos (by decide : pyIsSpace ' ' = true)]

theorem pyStrip_append_space (l : List Char) : pyStrip (l ++ [' ']) = pyStrip l := by
  unfold pyStrip lstrip
  rw [List.dropWhile_append]
  by_cases h : (l.dropWhile pyIsSpace).isEmpty
  · rw [if_pos h]
    have h2 : l.dropWhile pyIsSpace = [] := by
      cases hl : l.dropWhile pyIsSpace with
      | nil => rfl
      | cons a t => rw [hl] at h; simp [List.isEmpty] at h
    rw [h2]
    rw [show ([' '] : List Char).dropWhile pyIsSpace = [] from by decide]
  · rw [if_neg h]
    exact rstrip_append_space _

theorem pyStrip_addSep_length (s : List Char) :
    (pyStrip (addSep s)).length ≤ s.length + 1 := by
  have h : addSep s = (s ++ ['.']) ++ [' '] := by
    unfold addSep; simp
  rw [h, pyStrip_append_space]
  calc (pyStrip (s ++ ['.'])).length ≤ (s ++ ['.']).length := pyStrip_length_le _
    _ = s.length + 1 := by simp

theorem pyStrip_append_addSep_length (x s : List Char) :
    (pyStrip (x ++ addSep s)).length ≤ x.length + s.length + 1 := by
  have h : x ++ addSep s = ((x ++ s) ++ ['.']) ++ [' '] := by
    unfold addSep; simp
  rw [h, pyStrip_append_space]
  calc (pyStrip ((x ++ s) ++ ['.'])).length ≤ ((x ++ s) ++ ['.']).length :=
        pyStrip_length_le _
    _ = x.length + s.length + 1 := by simp [Nat.add_assoc]

theorem dot_mem_addSep (s : List Char) : '.' ∈ addSep s := by
  unfold addSep
  exact List.mem_append_right s (by decide)

theorem pyStrip_addSep_ne_nil (s : List Char) : pyStrip (addSep s) ≠ [] :=
  pyStrip_ne_nil (dot_mem_addSep s) (by decide)

theorem addSep_length (s : List Char) : (addSep s).length = s.length + 2 := by
  unfold addSep; simp

theorem pyStrip_nil : pyStrip [] = [] := rfl

/-! ### Lemmas about the chunking loop -/

theorem chunkLoop_bound (m : Nat) (S : List (List Char)) :
    ∀ (rest : List (List Char)) (current : List Char),
    (∀ s ∈ rest, s ∈ S) →
    ((pyStrip current).length ≤ m ∨ ∃ s ∈ S, m ≤ s.length ∧ current = addSep s) →
    ∀ c ∈ chunkLoop m rest current,
      c.length ≤ m ∨ ∃ s ∈ S, m ≤ s.length ∧ c = pyStrip (addSep s) := by
  intro rest
  induction rest with
  | nil =>
    intro current _ hinv c hc
    simp only [chunkLoop] at hc
    by_cases hz : pyStrip current = []
    · rw [if_pos hz] at hc; cases hc
    · rw [if_neg hz] at hc
      rcases List.mem_singleton.mp hc with rfl
      rcases hinv with hle | ⟨s, hs, hm, hcur⟩
      · exact Or.inl hle
      · exact Or.inr ⟨s, hs, hm, by rw [hcur]⟩
  | cons s rest ih =>
    intro current hsub hinv c hc
    simp only [chunkLoop] at hc
    by_cases hcond : current.length + s.length < m
    · rw [if_pos hcond] at hc
      refine ih (current ++ addSep s)
        (fun x hx => hsub x (List.mem_cons_of_mem _ hx)) (Or.inl ?_) c hc
      calc (pyStrip (current ++ addSep s)).length
          ≤ current.length + s.length + 1 := pyStrip_append_addSep_length current s
        _ ≤ m := hcond
    · rw [if_neg hcond] at hc
      rcases List.mem_cons.mp hc with rfl | hc2
      · rcases hinv with hle | ⟨s', hs', hm', hcur⟩
        · exact Or.inl hle
        · exact Or.inr ⟨s', hs', hm', by rw [hcur]⟩
      · refine ih (addSep s)
          (fun x hx => hsub x (List.mem_cons_of_mem _ hx)) ?_ c hc2
        by_cases hsm : s.length < m
        · exact Or.inl (le_trans (pyStrip_addSep_length s) hsm)
        · exact Or.inr ⟨s, hsub s (List.mem_cons_self s rest),
            Nat.le_of_not_lt hsm, rfl⟩

theorem mem_chunkLoop_self (m : Nat) (s : List Char) (hm : m ≤ s.length) :
    ∀ rest, pyStrip (addSep s) ∈ chunkLoop m rest (addSep s) := by
  intro rest
  cases rest with
  | nil =>
    simp only [chunkLoop]
    rw [if_neg (pyStrip_addSep_ne_nil s)]
    exact List.mem_singleton.mpr rfl
  | cons s2 r =>
    simp only [chunkLoop]
    rw [if_neg]
    · exact List.mem_cons_self _ _
    · rw [addSep_length]; omega

theorem mem_chunkLoop_oversized (m : Nat) (s : List Char) (hm : m ≤ s.length) :
    ∀ (rest : List (List Char)) (current : List Char), s ∈ rest →
      pyStrip (addSep s) ∈ chunkLoop m rest current := by
  intro rest
  induction rest with
  | nil => intro current h; cases h
  | cons s1 r ih =>
    intro current hmem
    simp only [chunkLoop]
    rcases List.mem_cons.mp hmem with rfl | h2
    · rw [if_neg (by omega)]
      exact List.mem_cons_of_mem _ (mem_chunkLoop_self m s hm r)
    · by_cases hcond : current.length + s1.length < m
      · rw [if_pos hcond]; exact ih _ h2
      · rw [if_neg hcond]; exact List.mem_cons_of_mem _ (ih _ h2)

/-- The text a group of consecutive sentences contributes as one chunk:
each sentence regains its `". "` separator, and the result is stripped. -/
def renderGroup (g : List (List Char)) : List Char :=
  pyStrip (g.map addSep).flatten

theorem chunkLoop_groups (m : Nat) :
    ∀ (rest g : List (List Char)),
      ∃ groups : List (List (List Char)),
        groups.flatten = g ++ rest ∧
        chunkLoop m rest ((g.map addSep).flatten) = groups.map renderGroup := by
  intro rest
  induction rest with
  | nil =>
    intro g
    cases g with
    | nil =>
      refine ⟨[], rfl, ?_⟩
      simp only [chunkLoop, List.map_nil, List.flatten_nil]
      rw [if_pos pyStrip_nil]
    | cons g0 gs =>
      refine ⟨[g0 :: gs], by simp, ?_⟩
      simp only [chunkLoop]
      rw [if_neg]
      · rfl
      · refine pyStrip_ne_nil (c := '.') ?_ (by decide)
        exact List.mem_flatten.mpr ⟨addSep g0, by simp, dot_mem_addSep g0⟩
  | cons s rest ih =>
    intro g
    simp only [chunkLoop]
    by_cases hcond : ((g.map addSep).flatten).length + s.length < m
    · rw [if_pos hcond]
      obtain ⟨groups, hj, he⟩ := ih (g ++ [s])
      refine ⟨groups, by rw [hj]; simp, ?_⟩
      rw [← he]
      congr 1
      simp
    · rw [if_neg hcond]
      obtain ⟨groups, hj, he⟩ := ih [s]
      refine ⟨g :: groups, by simp [hj], ?_⟩
      simp only [List.map_cons]
      congr 1
      rw [← he]
      congr 1
      simp

theorem splitDS_cons_eq (acc : List Char) (c : Char) (rest : List Char)
    (h : ∀ rest1 : List Char, c = '.' → rest = ' ' :: rest1 → False) :
    splitDS acc (c :: rest) = splitDS (c :: acc) rest := by
  rw [splitDS.eq_def]
  split
  case h_1 =>
    rename_i rest1 heq
    injection heq with hc hrest
    exact (h rest1 hc hrest).elim
  case h_2 =>
    rename_i c2 rest2 _ heq
    injection heq with hc hrest
    rw [hc, hrest]
  case h_3 =>
    rename_i heq
    cases heq

theorem splitDS_ne_nil : ∀ (acc t : List Char), splitDS acc t ≠ [] := by
  intro acc t
  induction acc, t using splitDS.induct with
  | case1 acc rest ih => simp [splitDS]
  | case2 acc c rest h ih => rw [splitDS_cons_eq acc c rest h]; exact ih
  | case3 acc => simp [splitDS]

theorem chunkLoop_ne_nil (m : Nat) :
    ∀ (rest : List (List Char)) (current : List Char), rest ≠ [] →
      chunkLoop m rest current ≠ [] := by
  intro rest
  induction rest with
  | nil => intro current h; exact (h rfl).elim
  | cons s rest ih =>
    intro current _
    simp only [chunkLoop]
    by_cases hcond : current.length + s.length < m
    · rw [if_pos hcond]
      cases rest with
      | nil =>
        simp only [chunkLoop]
        rw [if_neg]
        · simp
        · refine pyStrip_ne_nil (c := '.') ?_ (by decide)
          exact List.mem_append_right current (dot_mem_addSep s)
      | cons s2 r2 => exact ih _ (by simp)
    · rw [if_neg hcond]
      simp

theorem chunk_text_ne_nil (t : List Char) (m : Nat) : chunk_text t m ≠ [] := by
  unfold chunk_text
  cases h : splitDS [] t with
  | nil => exact (splitDS_ne_nil [] t h).elim
  | cons s r => exact chunkLoop_ne_nil m (s :: r) [] (by simp)

/-! ### Lemmas about the upload (extraction) loop -/

theorem except_bind_ok {α β : Type} (a : α) (f : α → Except Unit β) :
    (Except.ok a : Except Unit α) >>= f = f a := rfl

theorem except_bind_error {α β : Type} (f : α → Except Unit β) :
    (Except.error () : Except Unit α) >>= f = Except.error () := rfl

theorem extractSlide_skip {gen : List Char → Except Unit (List Char)}
    {idx : Nat} {s : InputSlide} {r : SlideRecord}
    (h : extractSlide gen idx s = .ok r) : r.skip = false := by
  simp only [extractSlide] at h
  cases hg : generate_narration gen (slideTextOf s) idx (get_slide_title s) with
  | error e => rw [hg] at h; cases e; rw [except_bind_error] at h; cases h
  | ok notes =>
    rw [hg, except_bind_ok] at h
    injection h with h
    rw [← h]

theorem extractSlide_index {gen : List Char → Except Unit (List Char)}
    {idx : Nat} {s : InputSlide} {r : SlideRecord}
    (h : extractSlide gen idx s = .ok r) : r.index = idx := by
  simp only [extractSlide] at h
  cases hg : generate_narration gen (slideTextOf s) idx (get_slide_title s) with
  | error e => rw [hg] at h; cases e; rw [except_bind_error] at h; cases h
  | ok notes =>
    rw [hg, except_bind_ok] at h
    injection h with h
    rw [← h]

/-- The upload loop never reads the notes already present in the deck:
replacing the `existingNotes` field of a slide leaves its extraction result
unchanged. -/
theorem extractSlide_ignores_existingNotes
    (gen : List Char → Except Unit (List Char)) (idx : Nat) (s : InputSlide)
    (x : Option (List Char)) :
    extractSlide gen idx { s with existingNotes := x } = extractSlide gen idx s := rfl

theorem extractLoop_length (gen : List Char → Except Unit (List Char)) :
    ∀ (slides : List InputSlide) (idx : Nat) (records : List SlideRecord),
      extractLoop gen idx slides = .ok records → records.length = slides.length := by
  intro slides
  induction slides with
  | nil =>
    intro idx records h
    simp only [extractLoop] at h
    injection h with h
    subst h
    rfl
  | cons s ss ih =>
    intro idx records h
    simp only [extractLoop] at h
    cases h1 : extractSlide gen idx s with
    | error e => cases e; rw [h1, except_bind_error] at h; cases h
    | ok r =>
      rw [h1, except_bind_ok] at h
      cases h2 : extractLoop gen (idx + 1) ss with
      | error e => cases e; rw [h2, except_bind_error] at h; cases h
      | ok rs =>
        rw [h2, except_bind_ok] at h
        injection h with h
        subst h
        simp only [List.length_cons]
        rw [ih (idx + 1) rs h2]

theorem extractLoop_get (gen : List Char → Except Unit (List Char)) :
    ∀ (slides : List InputSlide) (idx : Nat) (records : List SlideRecord),
      extractLoop gen idx slides = .ok records →
      ∀ (j : Nat) (r : SlideRecord) (s : InputSlide),
        records[j]? = some r → slides[j]? = some s →
        extractSlide gen (idx + j) s = .ok r := by
  intro slides
  induction slides with
  | nil =>
    intro idx records h j r s hr hs
    cases hs
  | cons s0 ss ih =>
    intro idx records h j r s hr hs
    simp only [extractLoop] at h
    cases h1 : extractSlide gen idx s0 with
    | error e => cases e; rw [h1, except_bind_error] at h; cases h
    | ok r0 =>
      rw [h1, except_bind_ok] at h
      cases h2 : extractLoop gen (idx + 1) ss with
      | error e => cases e; rw [h2, except_bind_error] at h; cases h
      | ok rs =>
        rw [h2, except_bind_ok] at h
        injection h with h
        cases j with
        | zero =>
          rw [← h] at hr
          simp only [List.getElem?_cons_zero] at hr hs
          injection hr with hr
          injection hs with hs
          rw [← hr, ← hs, Nat.add_zero]
          exact h1
        | succ jj =>
          rw [← h] at hr
          simp only [List.getElem?_cons_succ] at hr hs
          have := ih (idx + 1) rs h2 jj r s hr hs
          rw [show idx + 1 + jj = idx + (jj + 1) from by omega] at this
          exact this

theorem extractLoop_skip_false (gen : List Char → Except Unit (List Char)) :
    ∀ (slides : List InputSlide) (idx : Nat) (records : List SlideRecord),
      extractLoop gen idx slides = .ok records →
      ∀ r ∈ records, r.skip = false := by
  intro slides
  induction slides with
  | nil =>
    intro idx records h r hr
    simp only [extractLoop] at h
    injection h with h
    rw [← h] at hr
    cases hr
  | cons s0 ss ih =>
    intro idx records h r hr
    simp only [extractLoop] at h
    cases h1 : extractSlide gen idx s0 with
    | error e => cases e; rw [h1, except_bind_error] at h; cases h
    | ok r0 =>
      rw [h1, except_bind_ok] at h
      cases h2 : extractLoop gen (idx + 1) ss with
      | error e => cases e; rw [h2, except_bind_error] at h; cases h
      | ok rs =>
        rw [h2, except_bind_ok] at h
        injection h with h
        rw [← h] at hr
        rcases List.mem_cons.mp hr with rfl | hr2
        · exact extractSlide_skip h1
        · exact ih (idx + 1) rs h2 r hr2

/-! ### Lemmas about the final-generation loop -/

theorem processSlide_none_of_tts_fail {speak : List Char → Nat → AttemptResult}
    {pf : Int → List Nat → List Nat} {pitch : Int} {pkg : List OutSlide}
    {r : SlideRecord} (hfail : (openai_tts speak 3 r.notes).ok = false) :
    processSlide speak pf pitch pkg r = none := by
  simp only [processSlide]
  cases hidx : pkg[r.index]? with
  | none => rfl
  | some sl => simp [hfail]

theorem processSlide_length {speak : List Char → Nat → AttemptResult}
    {pf : Int → List Nat → List Nat} {pitch : Int} {pkg pkg1 : List OutSlide}
    {r : SlideRecord} (h : processSlide speak pf pitch pkg r = some pkg1) :
    pkg1.length = pkg.length := by
  simp only [processSlide] at h
  cases hidx : pkg[r.index]? with
  | none => rw [hidx] at h; cases h
  | some sl =>
    rw [hidx] at h
    dsimp only at h
    by_cases ht : (openai_tts speak 3 r.notes).ok = true
    · rw [if_pos ht] at h
      injection h with h
      rw [← h]
      by_cases hnp : sl.hasNotesPlaceholder = true <;> simp [hnp, List.length_set]
    · rw [if_neg ht] at h; cases h

theorem processSlide_frame {speak : List Char → Nat → AttemptResult}
    {pf : Int → List Nat → List Nat} {pitch : Int} {pkg pkg1 : List OutSlide}
    {r : SlideRecord} (h : processSlide speak pf pitch pkg r = some pkg1)
    {i : Nat} (hi : r.index ≠ i) : pkg1[i]? = pkg[i]? := by
  simp only [processSlide] at h
  cases hidx : pkg[r.index]? with
  | none => rw [hidx] at h; cases h
  | some sl =>
    rw [hidx] at h
    dsimp only at h
    by_cases ht : (openai_tts speak 3 r.notes).ok = true
    · rw [if_pos ht] at h
      injection h with h
      rw [← h]
      by_cases hnp : sl.hasNotesPlaceholder = true <;>
        simp [hnp, List.getElem?_set_ne hi]
    · rw [if_neg ht] at h; cases h

/-- When `openai_tts` succeeds and the slide exists and has the notes body
placeholder, the loop iteration records the narration text in the notes and
appends one media asset. -/
theorem processSlide_sets_notes {speak : List Char → Nat → AttemptResult}
    {pf : Int → List Nat → List Nat} {pitch : Int} {pkg pkg1 : List OutSlide}
    {r : SlideRecord} {sl : OutSlide}
    (h : processSlide speak pf pitch pkg r = some pkg1)
    (hidx : pkg[r.index]? = some sl) (hnp : sl.hasNotesPlaceholder = true) :
    pkg1[r.index]? = some
      { media := sl.media ++ [apply_pitch pf pitch (openai_tts speak 3 r.notes).file]
        notesText := some r.notes
        hasNotesPlaceholder := sl.hasNotesPlaceholder } := by
  have hlt : r.index < pkg.length := by
    by_contra hge
    rw [List.getElem?_len_le (Nat.le_of_not_lt hge)] at hidx
    cases hidx
  simp only [processSlide] at h
  rw [hidx] at h
  dsimp only at h
  by_cases ht : (openai_tts speak 3 r.notes).ok = true
  · rw [if_pos ht] at h
    injection h with h
    rw [← h]
    rw [if_pos hnp]
    rw [List.set_set]
    rw [List.getElem?_set_self (by simpa using hlt)]
  · rw [if_neg ht] at h; cases h

theorem runSlides_length (speak : List Char → Nat → AttemptResult)
    (pf : Int → List Nat → List Nat) (pitch : Int) :
    ∀ (records : List SlideRecord) (pkg : List OutSlide),
      (runSlides speak pf pitch pkg records).pkg.length = pkg.length := by
  intro records
  induction records with
  | nil => intro pkg; rfl
  | cons r rs ih =>
    intro pkg
    simp only [runSlides]
    cases hp : processSlide speak pf pitch pkg r with
    | none => rfl
    | some pkg1 =>
      simp only []
      rw [ih pkg1, processSlide_length hp]

theorem runSlides_frame (speak : List Char → Nat → AttemptResult)
    (pf : Int → List Nat → List Nat) (pitch : Int) :
    ∀ (records : List SlideRecord) (pkg : List OutSlide) (i : Nat),
      (∀ r ∈ records, r.index ≠ i) →
      (runSlides speak pf pitch pkg records).pkg[i]? = pkg[i]? := by
  intro records
  induction records with
  | nil => intro pkg i _; rfl
  | cons r rs ih =>
    intro pkg i hne
    simp only [runSlides]
    cases hp : processSlide speak pf pitch pkg r with
    | none => rfl
    | some pkg1 =>
      simp only []
      rw [ih pkg1 i (fun x hx => hne x (List.mem_cons_of_mem _ hx))]
      exact processSlide_frame hp (hne r (List.mem_cons_self r rs))

theorem runSlides_processed_of_ok (speak : List Char → Nat → AttemptResult)
    (pf : Int → List Nat → List Nat) (pitch : Int) :
    ∀ (records : List SlideRecord) (pkg : List OutSlide),
      (runSlides speak pf pitch pkg records).ok = true →
      (runSlides speak pf pitch pkg records).processed = records.length := by
  intro records
  induction records with
  | nil => intro pkg _; rfl
  | cons r rs ih =>
    intro pkg hok
    simp only [runSlides] at hok ⊢
    cases hp : processSlide speak pf pitch pkg r with
    | none =>
      rw [hp] at hok
      dsimp only at hok
      cases hok
    | some pkg1 =>
      rw [hp] at hok
      dsimp only at hok ⊢
      rw [ih pkg1 hok, List.length_cons]

theorem exists_getElem?_of_mem {α : Type} {l : List α} {a : α} (h : a ∈ l) :
    ∃ i : Nat, l[i]? = some a := by
  obtain ⟨n, hn⟩ := List.get?_of_mem h
  exact ⟨n, by simpa [← List.get?_eq_getElem?] using hn⟩

/-- Where the notes of slide `base + i` end up after the final-generation
loop: if the records are positioned so that record `k` targets package
slide `base + k`, the loop ran to completion, and the slide at `base + i`
exposes the notes placeholder, then its final notes text is exactly the
narration text of record `i`. -/
theorem runSlides_notes (speak : List Char → Nat → AttemptResult)
    (pf : Int → List Nat → List Nat) (pitch : Int) :
    ∀ (records : List SlideRecord) (pkg : List OutSlide) (base i : Nat)
      (r : SlideRecord) (sl : OutSlide),
      (∀ (k : Nat) (rr : SlideRecord), records[k]? = some rr → rr.index = base + k) →
      records[i]? = some r →
      (runSlides speak pf pitch pkg records).ok = true →
      pkg[base + i]? = some sl →
      sl.hasNotesPlaceholder = true →
      ((runSlides speak pf pitch pkg records).pkg[base + i]?).map OutSlide.notesText
        = some (some r.notes) := by
  intro records
  induction records with
  | nil => intro pkg base i r sl _ hr _ _ _; cases hr
  | cons r0 rs ih =>
    intro pkg base i r sl hidx hr hok hsl hnp
    simp only [runSlides] at hok ⊢
    cases hp : processSlide speak pf pitch pkg r0 with
    | none =>
      rw [hp] at hok; dsimp only at hok; cases hok
    | some pkg1 =>
      rw [hp] at hok
      dsimp only at hok ⊢
      have hidx0 : r0.index = base := by
        have := hidx 0 r0 (by simp)
        simpa using this
      cases i with
      | zero =>
        have hr0 : r0 = r := by
          simp only [List.getElem?_cons_zero] at hr
          injection hr
        subst hr0
        have hsl2 : pkg[r0.index]? = some sl := by
          rw [hidx0]
          simpa using hsl
        have hset := processSlide_sets_notes hp hsl2 hnp
        have hframe : (runSlides speak pf pitch pkg1 rs).pkg[r0.index]? = pkg1[r0.index]? := by
          refine runSlides_frame speak pf pitch rs pkg1 r0.index ?_
          intro rr hrr
          obtain ⟨k, hk⟩ := exists_getElem?_of_mem hrr
          have hkk := hidx (k + 1) rr (by simpa [List.getElem?_cons_succ] using hk)
          omega
        rw [show base + 0 = r0.index from by omega, hframe, hset]
        rfl
      | succ j =>
        have hr2 : rs[j]? = some r := by
          simpa [List.getElem?_cons_succ] using hr
        have he : base + (j + 1) = (base + 1) + j := by omega
        have hsl2 : pkg1[(base + 1) + j]? = some sl := by
          rw [processSlide_frame hp (by omega : r0.index ≠ (base + 1) + j)]
          rw [← he]
          exact hsl
        have hidx2 : ∀ (k : Nat) (rr : SlideRecord), rs[k]? = some rr →
            rr.index = (base + 1) + k := by
          intro k rr hk
          have := hidx (k + 1) rr (by simpa [List.getElem?_cons_succ] using hk)
          omega
        have := ih pkg1 (base + 1) j r sl hidx2 hr2 hok hsl2 hnp
        rw [he]
        exact this

theorem runSlides_fail_head {speak : List Char → Nat → AttemptResult}
    {pf : Int → List Nat → List Nat} {pitch : Int} {pkg : List OutSlide}
    {r : SlideRecord} (rs : List SlideRecord)
    (hfail : (openai_tts speak 3 r.notes).ok = false) :
    runSlides speak pf pitch pkg (r :: rs) = ⟨pkg, 0, false⟩ := by
  simp only [runSlides]
  rw [processSlide_none_of_tts_fail hfail]

theorem runSlides_ignores_skip (speak : List Char → Nat → AttemptResult)
    (pf : Int → List Nat → List Nat) (pitch : Int) :
    ∀ (records : List SlideRecord) (pkg : List OutSlide),
      runSlides speak pf pitch pkg (records.map fun r => { r with skip := true })
        = runSlides speak pf pitch pkg records := by
  intro records
  induction records with
  | nil => intro pkg; rfl
  | cons r rs ih =>
    intro pkg
    simp only [List.map_cons, runSlides]
    have hps : processSlide speak pf pitch pkg { r with skip := true }
        = processSlide speak pf pitch pkg r := rfl
    rw [hps]
    cases hp : processSlide speak pf pitch pkg r with
    | none => rfl
    | some pkg1 =>
      dsimp only
      rw [ih pkg1]

/-! ### Small-step equations for the retry loop -/

theorem retryChunkAux_fail (att : Nat → AttemptResult) (fuel a : Nat)
    (file sleeps : List Nat) (h : (att a).ok = false) (hf : fuel ≠ 0) :
    retryChunkAux att (fuel + 1) a file sleeps =
      retryChunkAux att fuel (a + 1) (file ++ (att a).written)
        (sleeps ++ [2 * (a + 1)]) := by
  simp only [retryChunkAux, h, Bool.false_eq_true, if_false]
  rw [if_neg hf]

theorem retryChunkAux_ok (att : Nat → AttemptResult) (fuel a : Nat)
    (file sleeps : List Nat) (h : (att a).ok = true) :
    retryChunkAux att (fuel + 1) a file sleeps =
      ⟨file ++ (att a).written, sleeps, a + 1, true⟩ := by
  simp only [retryChunkAux, h, if_true]

theorem retryChunkAux_exhaust (att : Nat → AttemptResult) (a : Nat)
    (file sleeps : List Nat) (h : (att a).ok = false) :
    retryChunkAux att 1 a file sleeps =
      ⟨file ++ (att a).written, sleeps ++ [2 * (a + 1)], a + 1, false⟩ := by
  show retryChunkAux att (0 + 1) a file sleeps = _
  simp only [retryChunkAux, h, Bool.false_eq_true, if_false]
  simp

/-! ### Concrete fixtures used by the counterexamples and witnesses -/

/-- A text generator that always answers with the same sentence. -/
def genOk : List Char → Except Unit (List Char) :=
  fun _ => .ok ("A narration sentence.".data)

/-- A text generator that always fails (models an OpenAI exception). -/
def genFail : List Char → Except Unit (List Char) := fun _ => .error ()

/-- A speech provider attempt that always succeeds, streaming one byte. -/
def speakOk : List Char → Nat → AttemptResult := fun _ _ => ⟨[9], true⟩

/-- A speech provider attempt that always fails without writing bytes. -/
def speakFail : List Char → Nat → AttemptResult := fun _ _ => ⟨[], false⟩

/-- A trivial pydub abstraction (identity on bytes). -/
def pf0 : Int → List Nat → List Nat := fun _ b => b

/-- A content-rich slide with a title, pre-existing notes, and the usual
notes body placeholder. -/
def slideBig : InputSlide :=
  ⟨["This slide has plenty of extracted text content.".data],
   some ("Intro".data), some ("old notes".data), true⟩

/-- A nearly empty slide (extracted text far below the 20-char threshold). -/
def slideTiny : InputSlide := ⟨["hi".data], none, none, true⟩

/-- The record the upload loop builds from `slideBig` at position 0 under
`genOk`. -/
def recBig : SlideRecord :=
  ⟨0, "This slide has plenty of extracted text content.".data,
   "A narration sentence.".data, false⟩

/-- The record the upload loop builds from `slideTiny` at position 1 under
`genOk`. -/
def recTiny : SlideRecord :=
  ⟨1, "hi".data, "A narration sentence.".data, false⟩

example : extractSlides genOk [slideBig, slideTiny] = .ok [recBig, recTiny] := rfl

/-! ### Claim C5 -/

/-- Claim C5 (corrected): the claimed size bound fails as stated — a
sentence of length exactly `max_chars` already yields an oversized chunk,
and the oversized chunk is the sentence with the `". "` separator
re-appended and stripped (one extra `.`), not the sentence itself. The
amended bound: every chunk is within `max_chars`, or is `pyStrip (s ++ ". ")`
for a single sentence `s` of the split with `max_chars ≤ len s`; conversely
every such oversized sentence does appear as its own chunk. -/
theorem C5_amended_chunk_bound (t : List Char) (m : Nat) :
    (∀ c ∈ chunk_text t m,
      c.length ≤ m ∨ ∃ s ∈ splitDS [] t, m ≤ s.length ∧ c = pyStrip (addSep s)) ∧
    (∀ s ∈ splitDS [] t, m ≤ s.length → pyStrip (addSep s) ∈ chunk_text t m) := by
  constructor
  · intro c hc
    exact chunkLoop_bound m (splitDS [] t) (splitDS [] t) []
      (fun s hs => hs) (Or.inl (by rw [pyStrip_nil]; exact Nat.zero_le m)) c hc
  · intro s hs hm
    exact mem_chunkLoop_oversized m s hm (splitDS [] t) [] hs

/-- Claim C5, counterexample: at `text = "abc"`, `max_chars = 3`, the chunk
`"abc."` has length 4 > 3 yet is not a sentence of the text, and the only
sentence `"abc"` is not longer than `max_chars`. -/
theorem C5_counterexample :
    ¬ (∀ c ∈ chunk_text ("abc".data) 3,
        c.length ≤ 3 ∨ (c ∈ splitDS [] ("abc".data) ∧ 3 < c.length)) := by
  decide

/-- Claim C5, witness for the amended bound at a concrete input. -/
theorem C5_witness :
    ("abc.".data ∈ chunk_text ("abc".data) 3 ∧
      ("abc.".data.length ≤ 3 ∨ ∃ s ∈ splitDS [] ("abc".data),
        3 ≤ s.length ∧ "abc.".data = pyStrip (addSep s))) ∧
    ("abc".data ∈ splitDS [] ("abc".data) ∧ 3 ≤ "abc".data.length ∧
      pyStrip (addSep ("abc".data)) ∈ chunk_text ("abc".data) 3) := by
  refine ⟨⟨by decide, ?_⟩, ⟨by decide, by decide, ?_⟩⟩
  · exact (C5_amended_chunk_bound ("abc".data) 3).1 ("abc.".data) (by decide)
  · exact (C5_amended_chunk_bound ("abc".data) 3).2 ("abc".data) (by decide) (by decide)

/-! ### Claim C6 -/

/-- Claim C6 (confirmed): the chunks are exactly an in-order grouping of
the sentence split of the input — each chunk is its group of consecutive
sentences with the `". "` separator re-appended to each and surrounding
whitespace trimmed. Hence concatenating chunks in order reconstructs the
text up to separator normalization: no sentence is lost, duplicated, or
reordered. -/
theorem C6_chunks_reconstruct (t : List Char) (m : Nat) :
    ∃ groups : List (List (List Char)),
      groups.flatten = splitDS [] t ∧
      chunk_text t m = groups.map renderGroup := by
  have h := chunkLoop_groups m (splitDS [] t) []
  simpa using h

/-! ### Claim C10 -/

/-- Claim C10 (confirmed): when the first sentence of the split has length
at least `max_chars`, the loop flushes the still-empty accumulator, so the
first chunk of `chunk_text` is the empty string. -/
theorem C10_first_chunk_empty (t : List Char) (m : Nat) (s : List Char)
    (rest : List (List Char)) (hsplit : splitDS [] t = s :: rest)
    (hm : m ≤ s.length) : (chunk_text t m).head? = some [] := by
  unfold chunk_text
  rw [hsplit]
  simp only [chunkLoop]
  have hc : ¬ (([] : List Char).length + s.length < m) := by
    simp only [List.length_nil, Nat.zero_add]
    exact Nat.not_lt.mpr hm
  rw [if_neg hc]
  rw [pyStrip_nil]
  rfl

/-- Claim C10, witness: `"abc"` with `max_chars = 3` has first sentence of
length 3 and first chunk `""`. -/
theorem C10_witness :
    splitDS [] ("abc".data) = ["abc".data] ∧ 3 ≤ "abc".data.length ∧
    (chunk_text ("abc".data) 3).head? = some [] :=
  ⟨by decide, by decide,
    C10_first_chunk_empty ("abc".data) 3 ("abc".data) [] (by decide) (by decide)⟩

/-! ### Claim C7 -/

/-- Claim C7 (confirmed): if the provider fails on attempts 0 and 1 of a
chunk and succeeds on attempt 2, the retry loop of `openai_tts` (with the
default `retries = 3`) ends in `break`: it returns successfully, consumes
exactly 3 attempts (within the configured budget), and sleeps
`2 * 1` then `2 * 2` seconds before the two retries. -/
theorem C7_retry_success_within_budget (att : Nat → AttemptResult)
    (file0 : List Nat)
    (h0 : (att 0).ok = false) (h1 : (att 1).ok = false) (h2 : (att 2).ok = true) :
    (retryChunk att 3 file0).ok = true ∧
    (retryChunk att 3 file0).attempts = 3 ∧
    (retryChunk att 3 file0).attempts ≤ 3 ∧
    (retryChunk att 3 file0).sleeps = [2 * 1, 2 * 2] := by
  have key : retryChunk att 3 file0 =
      ⟨file0 ++ (att 0).written ++ (att 1).written ++ (att 2).written,
        [2 * 1, 2 * 2], 3, true⟩ := by
    show retryChunkAux att (2 + 1) 0 file0 [] = _
    rw [retryChunkAux_fail att 2 0 file0 [] h0 (by decide)]
    show retryChunkAux att (1 + 1) 1 _ _ = _
    rw [retryChunkAux_fail att 1 1 _ _ h1 (by decide)]
    show retryChunkAux att (0 + 1) 2 _ _ = _
    rw [retryChunkAux_ok att 0 2 _ _ h2]
    rfl
  rw [key]
  exact ⟨rfl, rfl, Nat.le_refl 3, rfl⟩

/-- A provider stub that fails on attempts 0 and 1 and succeeds on 2. -/
def attThird : Nat → AttemptResult := fun a => ⟨[a], a == 2⟩

/-- Claim C7, witness at the stub that succeeds on the third attempt. -/
theorem C7_witness :
    ((attThird 0).ok = false ∧ (attThird 1).ok = false ∧ (attThird 2).ok = true) ∧
    (retryChunk attThird 3 []).ok = true ∧
    (retryChunk attThird 3 []).attempts ≤ 3 ∧
    (retryChunk attThird 3 []).sleeps = [2 * 1, 2 * 2] := by
  have h := C7_retry_success_within_budget attThird [] rfl rfl rfl
  exact ⟨⟨rfl, rfl, rfl⟩, h.1, h.2.2.1, h.2.2.2⟩

/-! ### Claim C9 -/

/-- Claim C9 (confirmed): bytes streamed by a failed attempt stay in the
open output file; the retry streams the whole chunk again into the same
file, so the final byte stream holds the failed attempt prefix followed by
the complete copy — per-chunk writes are never rolled back. -/
theorem C9_partial_write_not_rolled_back (att : Nat → AttemptResult)
    (file0 part full : List Nat)
    (h0 : att 0 = ⟨part, false⟩) (h1 : att 1 = ⟨full, true⟩) :
    (retryChunk att 3 file0).file = file0 ++ part ++ full ∧
    (retryChunk att 3 file0).ok = true := by
  have key : retryChunk att 3 file0 = ⟨file0 ++ part ++ full, [2 * 1], 2, true⟩ := by
    show retryChunkAux att (2 + 1) 0 file0 [] = _
    rw [retryChunkAux_fail att 2 0 file0 [] (by rw [h0]) (by decide)]
    show retryChunkAux att (1 + 1) 1 _ _ = _
    rw [retryChunkAux_ok att 1 1 _ _ (by rw [h1])]
    rw [h0, h1]
    rfl
  rw [key]
  exact ⟨rfl, rfl⟩

/-- A provider stub whose first attempt writes two bytes and fails, and
whose second attempt writes the complete four-byte chunk. -/
def attPart : Nat → AttemptResult :=
  fun a => if a = 0 then ⟨[1, 2], false⟩ else ⟨[1, 2, 3, 4], true⟩

/-- Claim C9, witness: the file keeps the two partially streamed bytes and
then the complete copy. -/
theorem C9_witness :
    attPart 0 = ⟨[1, 2], false⟩ ∧ attPart 1 = ⟨[1, 2, 3, 4], true⟩ ∧
    (retryChunk attPart 3 [9]).file = [9] ++ [1, 2] ++ [1, 2, 3, 4] ∧
    (retryChunk attPart 3 [9]).ok = true := by
  have h := C9_partial_write_not_rolled_back attPart [9] [1, 2] [1, 2, 3, 4] rfl rfl
  exact ⟨rfl, rfl, h.1, h.2⟩

/-! ### Claim C3 -/

/-- Claim C3 (corrected): exhausted synthesis retries do abort the run.
When `openai_tts` re-raises for the first record, the final-generation
loop (which has no handler) stops: zero slides processed, no save, and the
reopened package is returned untouched. There are no lenient or strict
modes, no silent placeholder audio, and no `audio_state`; the session
narration records are simply left as they were. -/
theorem C3_amended_synthesis_failure_aborts
    (speak : List Char → Nat → AttemptResult) (pf : Int → List Nat → List Nat)
    (pitch : Int) (slides : List InputSlide) (r : SlideRecord)
    (rs : List SlideRecord)
    (hfail : (openai_tts speak 3 r.notes).ok = false) :
    (finalGeneration speak pf pitch slides (r :: rs)).ok = false ∧
    (finalGeneration speak pf pitch slides (r :: rs)).processed = 0 ∧
    (finalGeneration speak pf pitch slides (r :: rs)).saves = [] ∧
    (finalGeneration speak pf pitch slides (r :: rs)).package = slides.map initOut := by
  unfold finalGeneration
  rw [runSlides_fail_head rs hfail]
  exact ⟨rfl, rfl, rfl, rfl⟩

/-- Claim C3, counterexample: with an always-failing speech provider on a
two-slide deck, the run aborts on slide 1 — the second slide is never
processed and nothing is saved, contradicting the claimed degrade-and-
continue behavior. -/
theorem C3_counterexample :
    (finalGeneration speakFail pf0 0 [slideBig, slideTiny] [recBig, recTiny]).ok
      = false ∧
    (finalGeneration speakFail pf0 0 [slideBig, slideTiny] [recBig, recTiny]).processed
      = 0 ∧
    (finalGeneration speakFail pf0 0 [slideBig, slideTiny] [recBig, recTiny]).saves
      = [] := ⟨rfl, rfl, rfl⟩

/-- Claim C3, witness for the amended abort behavior at a concrete input. -/
theorem C3_witness :
    (openai_tts speakFail 3 recBig.notes).ok = false ∧
    (finalGeneration speakFail pf0 0 [slideBig] [recBig]).ok = false ∧
    (finalGeneration speakFail pf0 0 [slideBig] [recBig]).saves = [] := by
  have h := C3_amended_synthesis_failure_aborts speakFail pf0 0 [slideBig] recBig [] rfl
  exact ⟨rfl, h.1, h.2.2.1⟩

/-! ### Claim C8 -/

/-- Claim C8 (confirmed): `prs.save` happens exactly once, after the loop
has processed every record; if any iteration raises before that point, the
run ends with no save at all — run-level atomicity. -/
theorem C8_save_exactly_once (speak : List Char → Nat → AttemptResult)
    (pf : Int → List Nat → List Nat) (pitch : Int)
    (slides : List InputSlide) (records : List SlideRecord) :
    ((finalGeneration speak pf pitch slides records).ok = true →
      (finalGeneration speak pf pitch slides records).saves =
        [(finalGeneration speak pf pitch slides records).package] ∧
      (finalGeneration speak pf pitch slides records).processed = records.length) ∧
    ((finalGeneration speak pf pitch slides records).ok = false →
      (finalGeneration speak pf pitch slides records).saves = []) := by
  unfold finalGeneration
  dsimp only
  constructor
  · intro hok
    rw [if_pos hok]
    exact ⟨rfl, runSlides_processed_of_ok speak pf pitch records _ hok⟩
  · intro hbad
    rw [if_neg (by rw [hbad]; exact Bool.false_ne_true)]

/-- Claim C8, witness: a fully successful two-slide run saves exactly once
after both slides; an aborted run saves nothing. -/
theorem C8_witness :
    ((finalGeneration speakOk pf0 0 [slideBig, slideTiny] [recBig, recTiny]).ok
        = true ∧
      (finalGeneration speakOk pf0 0 [slideBig, slideTiny] [recBig, recTiny]).saves =
        [(finalGeneration speakOk pf0 0 [slideBig, slideTiny] [recBig, recTiny]).package] ∧
      (finalGeneration speakOk pf0 0 [slideBig, slideTiny] [recBig, recTiny]).processed
        = 2) ∧
    ((finalGeneration speakFail pf0 0 [slideTiny] [recTiny]).ok = false ∧
      (finalGeneration speakFail pf0 0 [slideTiny] [recTiny]).saves = []) := by
  have h1 := (C8_save_exactly_once speakOk pf0 0 [slideBig, slideTiny]
    [recBig, recTiny]).1 rfl
  have h2 := (C8_save_exactly_once speakFail pf0 0 [slideTiny] [recTiny]).2 rfl
  exact ⟨⟨rfl, h1.1, h1.2⟩, ⟨rfl, h2⟩⟩

/-! ### Claim C1 -/

/-- Claim C1 (corrected): the pipeline never keeps pre-existing narration.
The upload loop ignores the notes already in the deck (replacing the
`existingNotes` field changes nothing) and always generates fresh
narration; absent caller edits, the notes written to every output slide
that has the notes body placeholder are the generated narration text of
its record — not the input notes. -/
theorem C1_amended_existing_notes_ignored
    (gen : List Char → Except Unit (List Char)) (slides : List InputSlide)
    (records : List SlideRecord) (speak : List Char → Nat → AttemptResult)
    (pf : Int → List Nat → List Nat) (pitch : Int) (i : Nat)
    (r : SlideRecord) (s : InputSlide)
    (hex : extractSlides gen slides = .ok records)
    (hok : (finalGeneration speak pf pitch slides records).ok = true)
    (hr : records[i]? = some r) (hs : slides[i]? = some s)
    (hnp : s.hasNotesPlaceholder = true) :
    ((finalGeneration speak pf pitch slides records).package[i]?).map
        OutSlide.notesText = some (some r.notes) ∧
    (∀ x : Option (List Char),
      extractSlide gen i { s with existingNotes := x } = .ok r) := by
  constructor
  · unfold finalGeneration at hok ⊢
    dsimp only at hok ⊢
    have hidx : ∀ (k : Nat) (rr : SlideRecord), records[k]? = some rr →
        rr.index = 0 + k := by
      intro k rr hk
      have hk_lt : k < records.length := by
        by_contra hge
        rw [List.getElem?_len_le (Nat.le_of_not_lt hge)] at hk
        cases hk
      have hlen := extractLoop_length gen slides 0 records hex
      have hk_lt2 : k < slides.length := by omega
      have hsk : slides[k]? = some slides[k] := List.getElem?_eq_getElem hk_lt2
      have hslk := extractLoop_get gen slides 0 records hex k rr slides[k] hk hsk
      have := extractSlide_index hslk
      omega
    have hsl : (slides.map initOut)[0 + i]? = some (initOut s) := by
      simp only [Nat.zero_add]
      rw [List.getElem?_map, hs]
      rfl
    have hnp2 : (initOut s).hasNotesPlaceholder = true := hnp
    have := runSlides_notes speak pf pitch records (slides.map initOut) 0 i r
      (initOut s) hidx hr hok hsl hnp2
    simpa using this
  · intro x
    rw [extractSlide_ignores_existingNotes]
    have := extractLoop_get gen slides 0 records hex i r s hr hs
    simpa using this

/-- Claim C1, counterexample: `slideBig` carries notes `"old notes"`, the
caller makes no edit, yet the output notes are the generated sentence, not
the input notes. -/
theorem C1_counterexample :
    slideBig.existingNotes = some ("old notes".data) ∧
    extractSlides genOk [slideBig] = .ok [recBig] ∧
    ((finalGeneration speakOk pf0 0 [slideBig] [recBig]).package[0]?).map
        OutSlide.notesText = some (some ("A narration sentence.".data)) ∧
    "A narration sentence.".data ≠ "old notes".data :=
  ⟨rfl, rfl, rfl, by decide⟩

/-- Claim C1, witness for the amended statement at a concrete input. -/
theorem C1_witness :
    ((finalGeneration speakOk pf0 0 [slideBig, slideTiny] [recBig, recTiny]).package[1]?).map
        OutSlide.notesText = some (some recTiny.notes) ∧
    extractSlide genOk 1 { slideTiny with existingNotes := some ("ignored".data) }
      = .ok recTiny := by
  have h := C1_amended_existing_notes_ignored genOk [slideBig, slideTiny]
    [recBig, recTiny] speakOk pf0 0 1 recTiny slideTiny rfl rfl rfl rfl rfl
  exact ⟨h.1, h.2 (some ("ignored".data))⟩

/-! ### Claim C2 -/

/-- Claim C2 (corrected): `skip` is never set by the sparseness rule — the
upload loop hard-codes `skip = False` for every slide (`is_text_clear` is
defined but never called), and the final-generation loop never consults
`skip`: flipping every record to `skip = true` leaves the run unchanged. -/
theorem C2_amended_skip_never_set
    (gen : List Char → Except Unit (List Char)) (slides : List InputSlide)
    (records : List SlideRecord)
    (hex : extractSlides gen slides = .ok records) :
    (∀ r ∈ records, r.skip = false) ∧
    (∀ (speak : List Char → Nat → AttemptResult)
       (pf : Int → List Nat → List Nat) (pitch : Int),
      finalGeneration speak pf pitch slides
          (records.map fun r => { r with skip := true })
        = finalGeneration speak pf pitch slides records) := by
  constructor
  · exact extractLoop_skip_false gen slides 0 records hex
  · intro speak pf pitch
    unfold finalGeneration
    rw [runSlides_ignores_skip]

/-- Claim C2, counterexample: `slideTiny` sits at position 1 (not first)
with extracted text `"hi"` far below the 20-character threshold, yet its
record has `skip = false` — the claimed equivalence fails. -/
theorem C2_counterexample :
    extractSlides genOk [slideBig, slideTiny] = .ok [recBig, recTiny] ∧
    recTiny.skip = false ∧ is_text_clear recTiny.text = false ∧ recTiny.index ≠ 0 :=
  ⟨rfl, rfl, by decide, by decide⟩

/-- Claim C2, witness for the amended statement at a concrete input. -/
theorem C2_witness :
    (∀ r ∈ [recBig, recTiny], r.skip = false) ∧
    finalGeneration speakOk pf0 0 [slideBig, slideTiny]
        ([recBig, recTiny].map fun r => { r with skip := true })
      = finalGeneration speakOk pf0 0 [slideBig, slideTiny] [recBig, recTiny] := by
  have h := C2_amended_skip_never_set genOk [slideBig, slideTiny]
    [recBig, recTiny] rfl
  exact ⟨h.1, h.2 speakOk pf0 0⟩

/-! ### Claim C4 -/

/-- Claim C4 (corrected): there is no fallback sentence. A failure of the
text-generation call propagates out of `generate_narration` and aborts the
upload loop: when every provider call fails, extraction of a non-empty
deck returns the error and produces no records at all. -/
theorem C4_amended_generation_failure_aborts
    (gen : List Char → Except Unit (List Char)) (slides : List InputSlide)
    (s : InputSlide) (ss : List InputSlide)
    (hslides : slides = s :: ss) (hfail : ∀ p, gen p = .error ()) :
    extractSlides gen slides = .error () := by
  subst hslides
  show extractLoop gen 0 (s :: ss) = .error ()
  simp only [extractLoop]
  have h1 : extractSlide gen 0 s = .error () := by
    simp only [extractSlide, generate_narration]
    rw [hfail]
    rfl
  rw [h1, except_bind_error]

/-- Claim C4, counterexample: with an always-failing generator the upload
of a one-slide deck aborts with an error — no record with a fallback
narration is produced and the slide is lost with the run. -/
theorem C4_counterexample : extractSlides genFail [slideBig] = .error () := rfl

/-- Claim C4, witness for the amended statement at a concrete input. -/
theorem C4_witness : extractSlides genFail [slideBig, slideTiny] = .error () :=
  C4_amended_generation_failure_aborts genFail [slideBig, slideTiny] slideBig
    [slideTiny] rfl (fun _ => rfl)

end PPTVoice
